import Mathlib

/-!
Verification of the `sync_crexi.py` one-shot data-sync utility.

We shallowly embed the Python source into Lean: JSON values become an
inductive `Json` type, Python dictionary/sequence operations become partial
functions returning `Except PyErr _` (mirroring the exceptions the Python
runtime would raise), and each function of the source file becomes a Lean
definition of the same name.  Network and database effects are modelled by
explicit oracles, and console/exit behaviour by explicit event traces.
-/

set_option autoImplicit false

namespace SyncCrexi

/-- JSON values as handled by the script: Python `None`, booleans, integers
(the numeric payload values exercised by the script are integral), strings,
arrays (Python lists) and objects (Python dicts, kept as association lists
in insertion order, keys unique). -/
inductive Json where
  | null
  | bool (b : Bool)
  | num (n : Int)
  | str (s : String)
  | arr (elems : List Json)
  | obj (fields : List (String × Json))
  deriving Repr

/-- Errors the Python runtime raises on the operations the script uses:
`attrError` for calling `.get` on a non-dict, `typeError` for `len()` or
iteration over a non-sized / non-iterable value. -/
inductive PyErr where
  | attrError
  | typeError
  deriving Repr, DecidableEq

/-- Python `d.get(k, default)`: on a dict, the value stored under `k` if the
key is present (regardless of the value), otherwise `default`; on any other
value, an `AttributeError`. -/
def pyGet (j : Json) (k : String) (default : Json) : Except PyErr Json :=
  match j with
  | .obj fields => .ok ((fields.lookup k).getD default)
  | _ => .error .attrError

/-- Python `len(x)`: defined on lists, dicts and strings; `TypeError`
otherwise. -/
def pyLen (j : Json) : Except PyErr Nat :=
  match j with
  | .arr elems => .ok elems.length
  | .obj fields => .ok fields.length
  | .str s => .ok s.length
  | _ => .error .typeError

/-- Python iteration `for x in j`: lists yield their elements, dicts their
keys, strings their one-character substrings; anything else raises
`TypeError`. -/
def pyElems (j : Json) : Except PyErr (List Json) :=
  match j with
  | .arr elems => .ok elems
  | .obj fields => .ok (fields.map (fun f => Json.str f.1))
  | .str s => .ok (s.data.map (fun c => Json.str (String.singleton c)))
  | _ => .error .typeError

/-- Python `str(x)` coercion.  Faithful on the scalar values the script
feeds it (`str`, `int`, `bool`, `None`); composite values get a
deterministic structural rendering (the script never coerces those in the
properties under study, only their total-function existence matters). -/
def pyStr : Json → String
  | .null => "None"
  | .bool true => "True"
  | .bool false => "False"
  | .num n => toString n
  | .str s => s
  | .arr elems => "[list of " ++ toString elems.length ++ " items]"
  | .obj fields => "[dict of " ++ toString fields.length ++ " items]"

/-! ## Static configuration (module-level constants of the script) -/

def CREXI_BASE_URL : String := "https://api.crexi.com"

def CREXI_STAGE_URL : String := "https://stage-api.crexi.com"

def TARGET_MARKET : String := "Los Angeles"

/-! ## Record builders (`process_market_snapshot`, `process_suite_snapshots`)

Both builders start with the same extraction
`data.get('results', data.get('data', data.get('listings', [])))`.
`datetime.now().isoformat()` is modelled by an explicit `now : String`
argument, since the builders are otherwise pure.
-/

/-- The listings-extraction expression shared by both builders:
`data.get('results', data.get('data', data.get('listings', [])))`. -/
def extract_listings (data : Json) : Except PyErr Json := do
  let dListings ← pyGet data "listings" (Json.arr [])
  let dData ← pyGet data "data" dListings
  pyGet data "results" dData

/-- The per-listing suite list `listing.get('suites', [listing])`. -/
def suite_list_of (listing : Json) : Except PyErr Json :=
  pyGet listing "suites" (Json.arr [listing])

/-- The market-snapshot record shape (§3 MarketSnapshot). -/
structure MarketSnapshot where
  snapshot_date : String
  market_area : String
  property_type : String
  total_properties : Nat
  total_suites : Nat
  notes : String
  raw_data : Json
  deriving Repr

/-- `process_market_snapshot`: extraction, then
`total_properties = len(listings)` and
`total_suites = sum(len(listing.get('suites', [listing])) for listing in listings)`. -/
def process_market_snapshot (now : String) (data : Json) : Except PyErr MarketSnapshot := do
  let lv ← extract_listings data
  let total_properties ← pyLen lv
  let listings ← pyElems lv
  let total_suites ← listings.foldlM
    (fun acc listing => do
      let sv ← suite_list_of listing
      let n ← pyLen sv
      pure (acc + n)) 0
  pure { snapshot_date := now
         market_area := TARGET_MARKET
         property_type := "Industrial"
         total_properties := total_properties
         total_suites := total_suites
         notes := "Synced from Crexi API"
         raw_data := data }

/-- The suite-snapshot record shape (§3 SuiteSnapshot).  Fields that the
script fills with values of dynamic type are kept as `Json`. -/
structure SuiteSnapshot where
  snapshot_date : String
  crexi_asset_id : Json
  crexi_suite_id : Json
  market_area : String
  property_type : Json
  suite_size : Json
  lease_rate : Json
  rate_type : Json
  status : Json
  address : Json
  city : Json
  state : Json
  zip : Json
  raw_data : Json
  deriving Repr

/-- The dict literal built in the inner loop of `process_suite_snapshots`
for one `(listing, suite)` pair. -/
def build_suite_snapshot (now : String) (listing suite : Json) :
    Except PyErr SuiteSnapshot := do
  let assetAlt ← pyGet listing "assetId" (Json.str "")
  let assetRaw ← pyGet listing "id" assetAlt
  let suiteAlt ← pyGet suite "suiteId" (Json.str "")
  let suiteRaw ← pyGet suite "id" suiteAlt
  let propertyType ← pyGet listing "propertyType" (Json.str "Industrial")
  let sizeAlt ← pyGet suite "squareFeet" Json.null
  let size ← pyGet suite "size" sizeAlt
  let rateAlt ← pyGet suite "leaseRate" Json.null
  let rate ← pyGet suite "rate" rateAlt
  let rateTypeSuite ← pyGet suite "rateType" (Json.str "Monthly")
  let statusSuite ← pyGet suite "status" (Json.str "Active")
  let addrSuite ← pyGet suite "address" Json.null
  let addr ← pyGet listing "address" addrSuite
  let citySuite ← pyGet suite "city" Json.null
  let city ← pyGet listing "city" citySuite
  let stateSuite ← pyGet suite "state" Json.null
  let state ← pyGet listing "state" stateSuite
  let zipSuite ← pyGet suite "zipCode" Json.null
  let zip ← pyGet listing "zip" zipSuite
  pure { snapshot_date := now
         crexi_asset_id := Json.str (pyStr assetRaw)
         crexi_suite_id := Json.str (pyStr suiteRaw)
         market_area := TARGET_MARKET
         property_type := propertyType
         suite_size := size
         lease_rate := rate
         rate_type := rateTypeSuite
         status := statusSuite
         address := addr
         city := city
         state := state
         zip := zip
         raw_data := suite }

/-- `process_suite_snapshots`: extraction, then for each listing expand
`listing.get('suites', [listing])` and build one record per suite, in
listing order then suite order. -/
def process_suite_snapshots (now : String) (data : Json) :
    Except PyErr (List SuiteSnapshot) := do
  let lv ← extract_listings data
  let listings ← pyElems lv
  let nested ← listings.mapM (fun listing => do
    let sv ← suite_list_of listing
    let suites ← pyElems sv
    suites.mapM (build_suite_snapshot now listing))
  pure nested.flatten

/-! ## Endpoint prober (`fetch_crexi_listings`)

The network is modelled by an oracle mapping each attempted
(URL, headers) combination to an outcome: an HTTP response with a status
and JSON body, or a transport-level failure (timeout, connection error),
which the script catches per attempt.
-/

/-- One (URL, header-set) combination attempted by the prober. -/
structure Combo where
  url : String
  headers : List (String × String)
  deriving Repr, DecidableEq

/-- Outcome of one HTTP GET attempt: a response, or a transport failure
(`requests.exceptions.RequestException`). -/
inductive AttemptOutcome where
  | resp (status : Nat) (body : Json)
  | transportError
  deriving Repr

/-- Result handed from the prober to the rest of the run, mirroring the two
dict shapes returned by `fetch_crexi_listings`. -/
inductive ProbeResult where
  | success (endpoint : String) (headers : List (String × String)) (data : Json)
  | failure (error : String)
  deriving Repr

/-- `headers_options`: the three candidate authentication header schemes,
in source order. -/
def headers_options (key : String) : List (List (String × String)) :=
  [ [("Authorization", "Bearer " ++ key)]
  , [("x-api-key", key)]
  , [("api-key", key)] ]

/-- `endpoint_options`: the six candidate endpoint paths, in source order. -/
def endpoint_options : List String :=
  [ "/v1/listings"
  , "/v1/properties"
  , "/api/v1/listings"
  , "/api/v1/properties"
  , "/listings"
  , "/properties" ]

/-- `base_urls`: production first, then staging. -/
def base_urls : List String := [CREXI_BASE_URL, CREXI_STAGE_URL]

/-- The full cross-product the nested loops of `fetch_crexi_listings`
range over, in iteration order: base URL outermost, then endpoint path,
then header scheme; the attempted URL is `f"{base_url}{endpoint}"`. -/
def allCombos (key : String) : List Combo :=
  base_urls.flatMap (fun base_url =>
    endpoint_options.flatMap (fun endpoint =>
      (headers_options key).map (fun headers =>
        { url := base_url ++ endpoint, headers := headers })))

/-- The body of the nested probe loops: try each combination in order;
a 200 response returns immediately with that combination's URL, headers
and body; any other response or a transport failure falls through to the
next combination.  Returns the list of combinations actually attempted
(one HTTP GET each) together with the result. -/
def probeLoop (net : Combo → AttemptOutcome) :
    List Combo → List Combo × ProbeResult
  | [] => ([], .failure "No working endpoint found")
  | c :: rest =>
    match net c with
    | .resp status body =>
      if status = 200 then ([c], .success c.url c.headers body)
      else
        let (tried, res) := probeLoop net rest
        (c :: tried, res)
    | .transportError =>
      let (tried, res) := probeLoop net rest
      (c :: tried, res)

/-- Whether an attempt outcome is an HTTP 200 response. -/
def is200 : AttemptOutcome → Bool
  | .resp status _ => status == 200
  | .transportError => false

/-- `fetch_crexi_listings`: probe the full cross-product. -/
def fetch_crexi_listings (key : String) (net : Combo → AttemptOutcome) :
    List Combo × ProbeResult :=
  probeLoop net (allCombos key)

/-! ## Batch persister (`save_to_supabase`)

The database client is modelled by an oracle mapping each insert call to
`none` (success) or `some e` (the insert raised `e`); the error type `ε`
is abstract.  The function returns the insert calls issued, in order, and
the propagated error, if any — the Python `except` block prints and
re-raises, so the error reaches the caller unmodified.
-/

/-- One insert call issued to the backend: the single market-snapshot row,
or one batch of suite-snapshot rows. -/
inductive DbCall where
  | marketInsert (m : MarketSnapshot)
  | suiteInsert (batch : List SuiteSnapshot)

/-- Recursion peeling one 100-element slice at a time, with a fuel
argument bounding the recursion depth so the definition is structural
(and hence computes); `chunk100` below instantiates the fuel with the
list length, which `chunkAux_fuel_irrel` shows is always enough. -/
def chunkAux : Nat → List SuiteSnapshot → List (List SuiteSnapshot)
  | _, [] => []
  | 0, _ :: _ => []
  | fuel + 1, x :: xs => ((x :: xs).take 100) :: chunkAux fuel ((x :: xs).drop 100)

/-- The slices `suite_snapshots[i:i+100]` for `i in range(0, len, 100)`
(`batch_size = 100` in the source): same slices, in the same order. -/
def chunk100 (l : List SuiteSnapshot) : List (List SuiteSnapshot) :=
  chunkAux l.length l

/-- The batch-insert loop of `save_to_supabase`: issue each batch insert in
order, stopping at (and propagating) the first failure. -/
def insertBatches {ε : Type} (db : DbCall → Option ε) :
    List (List SuiteSnapshot) → List DbCall × Option ε
  | [] => ([], none)
  | b :: rest =>
    match db (.suiteInsert b) with
    | some e => ([.suiteInsert b], some e)
    | none =>
      let (calls, err) := insertBatches db rest
      (DbCall.suiteInsert b :: calls, err)

/-- `save_to_supabase`: insert the market snapshot as one call; only if it
succeeds, insert the suite snapshots in sequential batches of 100.  Any
failure aborts the remaining inserts and propagates. -/
def save_to_supabase {ε : Type} (db : DbCall → Option ε)
    (market_snapshot : MarketSnapshot) (suite_snapshots : List SuiteSnapshot) :
    List DbCall × Option ε :=
  match db (.marketInsert market_snapshot) with
  | some e => ([.marketInsert market_snapshot], some e)
  | none =>
    let (calls, err) := insertBatches db (chunk100 suite_snapshots)
    (DbCall.marketInsert market_snapshot :: calls, err)

/-! ## Configuration loader (`validate_environment`) and `main`

The three environment variables are read at module load; `validate_environment`
tests each with Python truthiness (absent or empty both count as missing),
collects the missing names in source order, and on any missing name prints
an aggregated message plus fixed help lines and calls `sys.exit(1)`.

`main` is modelled as a trace of observable events.  Per spec §6 the
console output is not a machine-readable contract, so only the console
lines of `validate_environment` (which §4.1 and §8 do constrain) are
recorded as events; network requests and database inserts are recorded
wherever they occur.
-/

/-- The process environment slice the script reads: `None` models an unset
variable. -/
structure Env where
  CREXI_API_KEY : Option String
  SUPABASE_URL : Option String
  SUPABASE_KEY : Option String

/-- Python truthiness of `os.getenv` results: `None` and the empty string
are falsy. -/
def envTruthy : Option String → Bool
  | none => false
  | some s => !(s == "")

/-- The `missing` list accumulated by `validate_environment`, in source
order. -/
def missingVars (env : Env) : List String :=
  (if envTruthy env.CREXI_API_KEY then [] else ["CREXI_API_KEY"]) ++
  (if envTruthy env.SUPABASE_URL then [] else ["SUPABASE_URL"]) ++
  (if envTruthy env.SUPABASE_KEY then [] else ["SUPABASE_KEY"])

/-- The aggregated one-message report:
`f"❌ Missing required environment variables: {', '.join(missing)}"`. -/
def missingMessage (missing : List String) : String :=
  "❌ Missing required environment variables: " ++ String.intercalate ", " missing

/-- `validate_environment`: the console lines printed and `some 1` when the
function exits the process, `none` when it returns normally. -/
def validate_environment (env : Env) : List String × Option Nat :=
  let missing := missingVars env
  if missing.isEmpty then ([], none)
  else
    ( [ missingMessage missing
      , "\nPlease set them in your environment or .env file:"
      , "  export CREXI_API_KEY=\x27your-api-key\x27"
      , "  export SUPABASE_URL=\x27your-supabase-url\x27"
      , "  export SUPABASE_KEY=\x27your-supabase-key\x27" ]
    , some 1 )

/-- Observable events of one run. -/
inductive Event where
  | consoleLine (s : String)
  | httpGet (url : String) (headers : List (String × String))
  | dbWrite (call : DbCall)

/-- How the process ends: an explicit `sys.exit` code, an unhandled Python
runtime error from the record builders, or an unhandled backend error
re-raised by the persister. -/
inductive ExitOutcome (ε : Type) where
  | exited (code : Nat)
  | pyExn (e : PyErr)
  | dbExn (e : ε)

/-- `main`: validate the environment (exiting early on missing variables),
probe the API, exit 1 on probe failure, build both record sets, persist.
`now` stands for the timestamps taken during the run. -/
def mainRun {ε : Type} (env : Env) (net : Combo → AttemptOutcome)
    (db : DbCall → Option ε) (now : String) : List Event × ExitOutcome ε :=
  match validate_environment env with
  | (lines, some code) => (lines.map .consoleLine, .exited code)
  | (_, none) =>
    let key := env.CREXI_API_KEY.getD ""
    let (tried, res) := fetch_crexi_listings key net
    let httpEvents := tried.map (fun c => Event.httpGet c.url c.headers)
    match res with
    | .failure _ => (httpEvents, .exited 1)
    | .success _ _ data =>
      match process_market_snapshot now data with
      | .error e => (httpEvents, .pyExn e)
      | .ok market_snapshot =>
        match process_suite_snapshots now data with
        | .error e => (httpEvents, .pyExn e)
        | .ok suite_snapshots =>
          let (calls, err) := save_to_supabase db market_snapshot suite_snapshots
          let dbEvents := calls.map Event.dbWrite
          match err with
          | none => (httpEvents ++ dbEvents, .exited 0)
          | some e => (httpEvents ++ dbEvents, .dbExn e)

/-! ## Spec-mirror definitions (for refinement comparison only)

These two definitions follow the *spec's words* (§4.3), not the source;
they exist solely to be compared with `extract_listings` and
`suite_list_of` above.
-/

/-- Following the spec §4.3 wording: listings are extracted "by checking
keys in fixed priority order: `results`, then `data`, then `listings`,
defaulting to an empty sequence if none are present as non-empty arrays" —
i.e. a key only wins when its value is a non-empty array. -/
def specExtractListings (data : Json) : Json :=
  match data with
  | .obj fields =>
    let tryKey : String → Option Json := fun k =>
      match fields.lookup k with
      | some (Json.arr (x :: xs)) => some (Json.arr (x :: xs))
      | _ => none
    ((tryKey "results").orElse (fun _ =>
      (tryKey "data").orElse (fun _ => tryKey "listings"))).getD (Json.arr [])
  | _ => Json.arr []

/-- Following the spec §4.3 wording: "the suite list is `listing.suites` if
present and non-empty, else a single-element list containing the listing
itself". -/
def specSuiteList (listing : Json) : Json :=
  match listing with
  | .obj fields =>
    match fields.lookup "suites" with
    | some (Json.arr (x :: xs)) => Json.arr (x :: xs)
    | _ => Json.arr [listing]
  | _ => Json.arr [listing]

/-! ## Concrete test inputs (spec §8 examples and counterexample inputs) -/

/-- Spec §8: `{"results": [{"id": "A1", "suites": [{"id":"S1","size":1000},
{"id":"S2","size":2000}]}]}`. -/
def payload_A1 : Json :=
  .obj [("results", .arr [.obj
    [ ("id", .str "A1")
    , ("suites", .arr [ .obj [("id", .str "S1"), ("size", .num 1000)]
                      , .obj [("id", .str "S2"), ("size", .num 2000)] ]) ]])]

/-- Spec §8: `{"data": [{"assetId":"A2","squareFeet":500}]}` — a listing with
no `suites` key. -/
def payload_A2 : Json :=
  .obj [("data", .arr [.obj [("assetId", .str "A2"), ("squareFeet", .num 500)]])]

/-- The first value among the keys `results`, `data`, `listings` that is
present in `fields`, if any; used to state what `extract_listings`
computes on a dict payload. -/
def firstPresentListingsKey (fields : List (String × Json)) : Option Json :=
  (fields.lookup "results").orElse (fun _ =>
    (fields.lookup "data").orElse (fun _ => fields.lookup "listings"))

/-- A payload whose one listing has a `squareFeet` value but no id field
under any name. -/
def payload_noid : Json :=
  .obj [("data", .arr [.obj [("squareFeet", .num 500)]])]

/-- A payload whose one listing is the empty object. -/
def payload_bare : Json := .obj [("data", .arr [.obj []])]

/-- The suite record the builder produces for `payload_noid`. -/
def suiteRecNoId : SuiteSnapshot :=
  { snapshot_date := "t", crexi_asset_id := .str "", crexi_suite_id := .str ""
    market_area := "Los Angeles", property_type := .str "Industrial"
    suite_size := .num 500, lease_rate := .null, rate_type := .str "Monthly"
    status := .str "Active", address := .null, city := .null, state := .null
    zip := .null, raw_data := .obj [("squareFeet", .num 500)] }

/-- The suite record the builder produces for `payload_bare`. -/
def suiteRecBare : SuiteSnapshot :=
  { snapshot_date := "t", crexi_asset_id := .str "", crexi_suite_id := .str ""
    market_area := "Los Angeles", property_type := .str "Industrial"
    suite_size := .null, lease_rate := .null, rate_type := .str "Monthly"
    status := .str "Active", address := .null, city := .null, state := .null
    zip := .null, raw_data := .obj [] }

/-- A listing whose `suites` key is present but holds the empty array. -/
def listing_empty_suites : Json := .obj [("suites", .arr [])]

/-- A payload with one listing whose `suites` array is empty. -/
def payload_empty_suites : Json := .obj [("results", .arr [listing_empty_suites])]

/-- A payload where `results` is present as the empty array while `data` is
present as a non-empty array. -/
def payload_presence : Json :=
  .obj [("results", .arr []), ("data", .arr [.obj []])]

/-- The sixth combination of the probe cross-product (0-based index 5). -/
def combo6 : Combo := (allCombos "key").getD 5 { url := "", headers := [] }

/-- A stub network: 200 for the sixth combination, 404 for every other. -/
def stubNet200at6 : Combo → AttemptOutcome := fun c =>
  if c = combo6 then .resp 200 (Json.obj []) else .resp 404 Json.null

/-- A stub network that answers 404 everywhere. -/
def stubNet404 : Combo → AttemptOutcome := fun _ => .resp 404 Json.null

/-- A placeholder suite record, for building concrete record lists. -/
def suiteRec0 : SuiteSnapshot :=
  { snapshot_date := "t", crexi_asset_id := .str "", crexi_suite_id := .str ""
    market_area := TARGET_MARKET, property_type := .str "Industrial"
    suite_size := .null, lease_rate := .null, rate_type := .str "Monthly"
    status := .str "Active", address := .null, city := .null, state := .null
    zip := .null, raw_data := .null }

/-- A placeholder market record, for exercising the persister. -/
def marketRec0 : MarketSnapshot :=
  { snapshot_date := "t", market_area := TARGET_MARKET
    property_type := "Industrial", total_properties := 1, total_suites := 250
    notes := "Synced from Crexi API", raw_data := .null }

/-- A database stub on which every insert succeeds. -/
def dbAllOk : DbCall → Option Unit := fun _ => none

/-- An environment with an empty API key, unset backend URL, and a set
backend key: two of the three variables are missing. -/
def envMissingTwo : Env :=
  { CREXI_API_KEY := some "", SUPABASE_URL := none, SUPABASE_KEY := some "x" }

/-- A network stub that must never be consulted (any request would be
observable as an event anyway). -/
def netUnused : Combo → AttemptOutcome := fun _ => .transportError

/-! ## Helper lemmas -/

theorem exceptBind_ok {α β ε : Type} (a : α) (f : α → Except ε β) :
    (Except.ok a >>= f) = f a := rfl

theorem exceptBind_error {α β ε : Type} (e : ε) (f : α → Except ε β) :
    ((Except.error e : Except ε α) >>= f) = Except.error e := rfl

theorem exceptBind_pure {α β ε : Type} (a : α) (f : α → Except ε β) :
    ((pure a : Except ε α) >>= f) = f a := rfl

theorem pyElems_ok_length {j : Json} {es : List Json}
    (h : pyElems j = .ok es) : pyLen j = .ok es.length := by
  cases j with
  | arr elems => simp [pyElems] at h; subst h; simp [pyLen]
  | obj fields => simp [pyElems] at h; subst h; simp [pyLen]
  | str s =>
    simp [pyElems] at h; subst h
    simp only [pyLen, List.length_map]
    rfl
  | null => simp [pyElems] at h
  | bool b => simp [pyElems] at h
  | num n => simp [pyElems] at h

theorem mapM_nil_ok {α β : Type} {f : α → Except PyErr β} {ys : List β}
    (h : ([] : List α).mapM f = .ok ys) : ys = [] := by
  have hnil : ([] : List α).mapM f = (.ok [] : Except PyErr (List β)) := rfl
  rw [hnil] at h
  exact (Except.ok.inj h).symm

theorem mapM_cons_ok {α β : Type} {f : α → Except PyErr β} {x : α}
    {xs : List α} {ys : List β} (h : (x :: xs).mapM f = .ok ys) :
    ∃ y ys', f x = .ok y ∧ xs.mapM f = .ok ys' ∧ ys = y :: ys' := by
  rw [List.mapM_cons] at h
  cases hx : f x with
  | error e => rw [hx] at h; simp [exceptBind_error] at h
  | ok y =>
    rw [hx, exceptBind_ok] at h
    cases hxs : xs.mapM f with
    | error e => rw [hxs] at h; simp [exceptBind_error] at h
    | ok ys' =>
      rw [hxs, exceptBind_ok] at h
      simp [pure, Except.pure] at h
      exact ⟨y, ys', rfl, rfl, h.symm⟩

theorem mapM_ok_length {α β : Type} {f : α → Except PyErr β} :
    ∀ {xs : List α} {ys : List β}, xs.mapM f = .ok ys → ys.length = xs.length := by
  intro xs
  induction xs with
  | nil => intro ys h; simp [mapM_nil_ok h]
  | cons x xs ih =>
    intro ys h
    rcases mapM_cons_ok h with ⟨y, ys', _, hxs, rfl⟩
    simp [ih hxs]

theorem mapM_ok_mem {α β : Type} {f : α → Except PyErr β} :
    ∀ {xs : List α} {ys : List β}, xs.mapM f = .ok ys →
      ∀ y ∈ ys, ∃ x ∈ xs, f x = .ok y := by
  intro xs
  induction xs with
  | nil => intro ys h y hy; rw [mapM_nil_ok h] at hy; simp at hy
  | cons x xs ih =>
    intro ys h y hy
    rcases mapM_cons_ok h with ⟨y', ys', hx, hxs, rfl⟩
    rcases List.mem_cons.mp hy with hy | hy
    · exact ⟨x, by simp, by rw [hx, hy]⟩
    · rcases ih hxs y hy with ⟨x', hx', hfx'⟩
      exact ⟨x', by simp [hx'], hfx'⟩

theorem probeLoop_success_at {net : Combo → AttemptOutcome} :
    ∀ (l : List Combo) (i : Nat) (h : i < l.length) (body : Json),
      net (l.get ⟨i, h⟩) = .resp 200 body →
      (∀ j (hj : j < i), is200 (net (l.get ⟨j, Nat.lt_trans hj h⟩)) = false) →
      probeLoop net l =
        (l.take (i + 1), .success (l.get ⟨i, h⟩).url (l.get ⟨i, h⟩).headers body) := by
  intro l
  induction l with
  | nil => intro i h; exact absurd h (by simp)
  | cons c rest ih =>
    intro i h body h200 hprev
    cases i with
    | zero =>
      simp only [List.get] at h200
      simp [probeLoop, h200]
    | succ i' =>
      have h0 : is200 (net c) = false := by
        have := hprev 0 (Nat.succ_pos i')
        simpa using this
      have h' : i' < rest.length := by simpa using h
      have hrec := ih i' h' body (by simpa using h200)
        (fun j hj => by
          have := hprev (j + 1) (by omega)
          simpa using this)
      simp only [probeLoop]
      cases hc : net c with
      | transportError => simp [hrec, List.take_succ_cons]
      | resp status b =>
        have hs : ¬ status = 200 := by
          intro heq; subst heq; rw [hc] at h0; simp [is200] at h0
        simp [hs, hrec, List.take_succ_cons]

theorem probeLoop_all_fail {net : Combo → AttemptOutcome} :
    ∀ l : List Combo, (∀ c ∈ l, is200 (net c) = false) →
      probeLoop net l = (l, .failure "No working endpoint found") := by
  intro l
  induction l with
  | nil => intro _; rfl
  | cons c rest ih =>
    intro hall
    have h0 : is200 (net c) = false := hall c (by simp)
    have hrec := ih (fun c' hc' => hall c' (by simp [hc']))
    simp only [probeLoop]
    cases hc : net c with
    | transportError => simp [hrec]
    | resp status b =>
      have hs : ¬ status = 200 := by
        intro heq; subst heq; rw [hc] at h0; simp [is200] at h0
      simp [hs, hrec]

theorem probeLoop_failure_shape {net : Combo → AttemptOutcome} :
    ∀ (l tried : List Combo) (err : String),
      probeLoop net l = (tried, .failure err) →
      tried = l ∧ ∀ c ∈ l, is200 (net c) = false := by
  intro l
  induction l with
  | nil =>
    intro tried err h
    simp only [probeLoop] at h
    cases h
    simp
  | cons c rest ih =>
    intro tried err h
    simp only [probeLoop] at h
    cases hrec : probeLoop net rest with
    | mk tried' res =>
    rw [hrec] at h
    cases hc : net c with
    | resp status b =>
      rw [hc] at h
      dsimp only at h
      by_cases hs : status = 200
      · rw [if_pos hs] at h
        simp at h
      · rw [if_neg hs] at h
        simp only [Prod.mk.injEq] at h
        obtain ⟨h1, h2⟩ := h
        subst h2
        obtain ⟨ht, hall⟩ := ih tried' err hrec
        subst ht
        refine ⟨h1.symm, ?_⟩
        intro c' hc'
        rcases List.mem_cons.mp hc' with rfl | hmem
        · rw [hc]; simpa [is200, beq_eq_false_iff_ne] using hs
        · exact hall c' hmem
    | transportError =>
      rw [hc] at h
      dsimp only at h
      simp only [Prod.mk.injEq] at h
      obtain ⟨h1, h2⟩ := h
      subst h2
      obtain ⟨ht, hall⟩ := ih tried' err hrec
      subst ht
      refine ⟨h1.symm, ?_⟩
      intro c' hc'
      rcases List.mem_cons.mp hc' with rfl | hmem
      · rw [hc]; simp [is200]
      · exact hall c' hmem

theorem drop100_length_le {x : SuiteSnapshot} {xs : List SuiteSnapshot} {n : Nat}
    (hl : (x :: xs).length ≤ n + 1) : ((x :: xs).drop 100).length ≤ n := by
  simp only [List.length_drop, List.length_cons] at hl ⊢
  omega

theorem chunkAux_nil (fuel : Nat) : chunkAux fuel [] = [] := by
  cases fuel <;> rfl

theorem chunkAux_fuel_irrel :
    ∀ (fuel₁ fuel₂ : Nat) (l : List SuiteSnapshot),
      l.length ≤ fuel₁ → l.length ≤ fuel₂ → chunkAux fuel₁ l = chunkAux fuel₂ l := by
  intro fuel₁
  induction fuel₁ with
  | zero =>
    intro fuel₂ l h₁ _
    have : l = [] := List.length_eq_zero.mp (Nat.le_zero.mp h₁)
    subst this
    rw [chunkAux_nil, chunkAux_nil]
  | succ f ih =>
    intro fuel₂ l h₁ h₂
    cases l with
    | nil => rw [chunkAux_nil, chunkAux_nil]
    | cons x xs =>
      cases fuel₂ with
      | zero => simp at h₂
      | succ g =>
        simp only [chunkAux]
        rw [ih g ((x :: xs).drop 100) (drop100_length_le h₁) (drop100_length_le h₂)]

theorem chunk100_nil : chunk100 [] = [] := rfl

theorem chunk100_cons (x : SuiteSnapshot) (xs : List SuiteSnapshot) :
    chunk100 (x :: xs) = ((x :: xs).take 100) :: chunk100 ((x :: xs).drop 100) := by
  simp only [chunk100, List.length_cons, chunkAux]
  rw [chunkAux_fuel_irrel xs.length ((x :: xs).drop 100).length ((x :: xs).drop 100)
    (drop100_length_le (Nat.le_refl _)) (Nat.le_refl _)]

theorem chunk100_flatten_bounded :
    ∀ (n : Nat) (l : List SuiteSnapshot), l.length ≤ n → (chunk100 l).flatten = l := by
  intro n
  induction n with
  | zero =>
    intro l hl
    have : l = [] := List.length_eq_zero.mp (Nat.le_zero.mp hl)
    subst this
    simp [chunk100_nil]
  | succ n ih =>
    intro l hl
    cases l with
    | nil => simp [chunk100_nil]
    | cons x xs =>
      rw [chunk100_cons, List.flatten_cons,
        ih ((x :: xs).drop 100) (drop100_length_le hl)]
      exact List.take_append_drop 100 (x :: xs)

theorem chunk100_flatten (l : List SuiteSnapshot) : (chunk100 l).flatten = l :=
  chunk100_flatten_bounded l.length l (Nat.le_refl _)

theorem chunk100_batch_size_bounded :
    ∀ (n : Nat) (l : List SuiteSnapshot), l.length ≤ n →
      ∀ b ∈ chunk100 l, 0 < b.length ∧ b.length ≤ 100 := by
  intro n
  induction n with
  | zero =>
    intro l hl
    have : l = [] := List.length_eq_zero.mp (Nat.le_zero.mp hl)
    subst this
    simp [chunk100_nil]
  | succ n ih =>
    intro l hl b hb
    cases l with
    | nil => simp [chunk100_nil] at hb
    | cons x xs =>
      rw [chunk100_cons] at hb
      rcases List.mem_cons.mp hb with rfl | hmem
      · simp only [List.length_take, List.length_cons]; omega
      · exact ih ((x :: xs).drop 100) (drop100_length_le hl) b hmem

theorem chunk100_batch_size (l : List SuiteSnapshot) :
    ∀ b ∈ chunk100 l, 0 < b.length ∧ b.length ≤ 100 :=
  chunk100_batch_size_bounded l.length l (Nat.le_refl _)

theorem chunk100_eq_nil_iff (l : List SuiteSnapshot) : chunk100 l = [] ↔ l = [] := by
  cases l with
  | nil => simp [chunk100_nil]
  | cons x xs => simp [chunk100_cons]

theorem chunk100_full_batches_bounded :
    ∀ (n : Nat) (l : List SuiteSnapshot), l.length ≤ n →
      ∀ i, i + 1 < (chunk100 l).length → ((chunk100 l).getD i []).length = 100 := by
  intro n
  induction n with
  | zero =>
    intro l hl
    have : l = [] := List.length_eq_zero.mp (Nat.le_zero.mp hl)
    subst this
    simp [chunk100_nil]
  | succ n ih =>
    intro l hl i hi
    cases l with
    | nil => simp [chunk100_nil] at hi
    | cons x xs =>
      rw [chunk100_cons] at hi ⊢
      cases i with
      | zero =>
        have hne : chunk100 ((x :: xs).drop 100) ≠ [] := by
          intro hnil
          rw [hnil] at hi
          simp at hi
        have hdrop : (x :: xs).drop 100 ≠ [] := by
          intro hnil
          exact hne ((chunk100_eq_nil_iff _).mpr hnil)
        have hlong : 100 < (x :: xs).length := by
          by_contra hle
          exact hdrop (List.drop_eq_nil_of_le (by omega))
        simp only [List.getD_cons_zero, List.length_take]
        omega
      | succ i' =>
        simp only [List.getD_cons_succ]
        exact ih ((x :: xs).drop 100) (drop100_length_le hl) i' (by simpa using hi)

theorem chunk100_full_batches (l : List SuiteSnapshot) :
    ∀ i, i + 1 < (chunk100 l).length → ((chunk100 l).getD i []).length = 100 :=
  chunk100_full_batches_bounded l.length l (Nat.le_refl _)

theorem insertBatches_all_ok {ε : Type} (db : DbCall → Option ε) :
    ∀ bs : List (List SuiteSnapshot), (∀ b ∈ bs, db (.suiteInsert b) = none) →
      insertBatches db bs = (bs.map DbCall.suiteInsert, none) := by
  intro bs
  induction bs with
  | nil => intro _; rfl
  | cons b rest ih =>
    intro hall
    simp only [insertBatches]
    rw [hall b (by simp), ih (fun b' h' => hall b' (by simp [h']))]
    simp

theorem insertBatches_fail_shape {ε : Type} (db : DbCall → Option ε) :
    ∀ (bs : List (List SuiteSnapshot)) (calls : List DbCall) (e : ε),
      insertBatches db bs = (calls, some e) →
      ∃ pre b rest, bs = pre ++ b :: rest ∧
        (∀ b' ∈ pre, db (.suiteInsert b') = none) ∧
        db (.suiteInsert b) = some e ∧
        calls = (pre ++ [b]).map DbCall.suiteInsert := by
  intro bs
  induction bs with
  | nil =>
    intro calls e h
    simp only [insertBatches] at h
    simp at h
  | cons b rest ih =>
    intro calls e h
    simp only [insertBatches] at h
    cases hdb : db (.suiteInsert b) with
    | some e' =>
      rw [hdb] at h
      dsimp only at h
      simp only [Prod.mk.injEq, Option.some.injEq] at h
      obtain ⟨h1, h2⟩ := h
      subst h2
      exact ⟨[], b, rest, by simp, by simp, hdb, by simp [← h1]⟩
    | none =>
      rw [hdb] at h
      dsimp only at h
      cases hrec : insertBatches db rest with
      | mk calls' err' =>
        rw [hrec] at h
        dsimp only at h
        simp only [Prod.mk.injEq] at h
        obtain ⟨h1, h2⟩ := h
        subst h2
        obtain ⟨pre', b', rest', hsplit, hpre, hfail, hcalls⟩ := ih calls' e hrec
        refine ⟨b :: pre', b', rest', by simp [hsplit], ?_, hfail, ?_⟩
        · intro b'' hb''
          rcases List.mem_cons.mp hb'' with rfl | hmem
          · exact hdb
          · exact hpre b'' hmem
        · simp [← h1, hcalls]

/-! ## Claim C2 — extraction of the listings array -/

/-- C2 (counterexample): the claim says the extraction yields the empty
sequence exactly when none of `results`/`data`/`listings` is present as a
non-empty array.  On `{"results": [], "data": [{}]}` the code returns the
empty array even though `data` is present as a non-empty array (presence
of the key wins, emptiness is not checked); the spec-mirror extraction
disagrees with the code here. -/
theorem extraction_presence_counterexample :
    extract_listings payload_presence = .ok (Json.arr []) ∧
    specExtractListings payload_presence = Json.arr [Json.obj []] ∧
    Json.arr [] ≠ Json.arr [Json.obj []] := by
  refine ⟨rfl, rfl, by simp⟩

/-- C2 (amended): both record builders share `extract_listings`, which on a
dict payload returns the value of the first *present* key among `results`,
`data`, `listings` — regardless of whether that value is a non-empty
array — and the empty array when none of the three keys is present; hence
the extraction yields the empty sequence exactly when no key is present or
the first present key holds the empty array. -/
theorem extraction_first_present_key (fields : List (String × Json)) :
    extract_listings (Json.obj fields) =
      .ok ((firstPresentListingsKey fields).getD (Json.arr [])) ∧
    (extract_listings (Json.obj fields) = .ok (Json.arr []) ↔
      firstPresentListingsKey fields = none ∨
      firstPresentListingsKey fields = some (Json.arr [])) := by
  constructor <;>
  · cases h1 : fields.lookup "results" <;>
    cases h2 : fields.lookup "data" <;>
    cases h3 : fields.lookup "listings" <;>
    simp [extract_listings, pyGet, firstPresentListingsKey, h1, h2, h3,
      Option.orElse, exceptBind_ok]

/-! ## Claim C1 — per-listing suite list fallback -/

/-- C1 (counterexample): the claim says the suite list is the value of
`suites` only when that key is present *and non-empty*, else `[listing]`.
For a listing whose `suites` key holds the empty array, the code uses the
empty list (so the builder emits no record for that listing), while the
spec-mirror fallback would use the single-element list containing the
listing. -/
theorem suite_fallback_counterexample :
    suite_list_of listing_empty_suites = .ok (Json.arr []) ∧
    specSuiteList listing_empty_suites = Json.arr [listing_empty_suites] ∧
    Json.arr [] ≠ Json.arr [listing_empty_suites] ∧
    process_suite_snapshots "t" (Json.obj [("data", Json.arr [listing_empty_suites])]) =
      .ok [] := by
  refine ⟨rfl, rfl, by simp, rfl⟩

/-- C1 (amended): for every listing object, the suite list used by both
record builders is the value of the `suites` key whenever that key is
present (even if empty or non-array), and the single-element list
containing the listing itself only when the key is absent; in particular
for the payload `{"data": [{"assetId":"A2","squareFeet":500}]}` the suite
builder emits exactly one record with suite_size 500 and
crexi_asset_id "A2". -/
theorem suite_fallback_key_presence :
    (∀ fields : List (String × Json),
      suite_list_of (Json.obj fields) =
        .ok ((fields.lookup "suites").getD (Json.arr [Json.obj fields]))) ∧
    (∀ now : String, ∃ r : SuiteSnapshot,
      process_suite_snapshots now payload_A2 = .ok [r] ∧
      r.suite_size = Json.num 500 ∧ r.crexi_asset_id = Json.str "A2") := by
  constructor
  · intro fields; rfl
  · intro now
    refine ⟨_, rfl, rfl, rfl⟩

/-! ## Claim C3 — market snapshot counts -/

theorem foldlM_suite_sum :
    ∀ (listings : List Json) (ns : List Nat) (acc : Nat),
      listings.mapM (fun l => suite_list_of l >>= pyLen) = .ok ns →
      listings.foldlM (fun acc listing => do
          let sv ← suite_list_of listing
          let n ← pyLen sv
          pure (acc + n)) acc = (.ok (acc + ns.sum) : Except PyErr Nat) := by
  intro listings
  induction listings with
  | nil =>
    intro ns acc h
    rw [mapM_nil_ok h]
    simp [List.foldlM, pure, Except.pure]
  | cons l rest ih =>
    intro ns acc h
    rcases mapM_cons_ok h with ⟨n, ns', hl, hrest, rfl⟩
    cases hsv : suite_list_of l with
    | error e => rw [hsv, exceptBind_error] at hl; cases hl
    | ok sv =>
      rw [hsv, exceptBind_ok] at hl
      rw [List.foldlM_cons, hsv, exceptBind_ok, hl, exceptBind_ok, exceptBind_pure]
      rw [ih ns' (acc + n) hrest]
      simp [List.sum_cons, Nat.add_assoc]

theorem market_snapshot_eval (now : String) (data lv : Json) (listings : List Json)
    (ns : List Nat)
    (h1 : extract_listings data = .ok lv)
    (h2 : pyElems lv = .ok listings)
    (h3 : listings.mapM (fun l => suite_list_of l >>= pyLen) = .ok ns) :
    process_market_snapshot now data =
      .ok { snapshot_date := now, market_area := TARGET_MARKET
            property_type := "Industrial", total_properties := listings.length
            total_suites := ns.sum, notes := "Synced from Crexi API"
            raw_data := data } := by
  have hlen : pyLen lv = .ok listings.length := pyElems_ok_length h2
  simp only [process_market_snapshot]
  rw [h1, exceptBind_ok, hlen, exceptBind_ok, h2, exceptBind_ok,
    foldlM_suite_sum listings ns 0 h3, exceptBind_ok]
  simp only [pure, Except.pure, Nat.zero_add]

/-- C3 (counterexample): the claim says total_suites sums the suite-list
lengths "with a minimum contribution of 1 per listing".  For the payload
`{"results": [{"suites": []}]}` the one listing's `suites` key is present
and empty, so the code counts 0 suites for it: total_properties is 1 but
total_suites is 0, not at least 1. -/
theorem market_counts_counterexample :
    ∃ m, process_market_snapshot "t" payload_empty_suites = .ok m ∧
      m.total_properties = 1 ∧ m.total_suites = 0 ∧ (0 : Nat) < 1 := by
  refine ⟨_, rfl, rfl, rfl, by decide⟩

/-- C3 (amended): for every payload whose extracted listings value
enumerates to a list of listings on which the per-listing suite-list
length computation succeeds, the market snapshot has total_properties
equal to the count of extracted listings and total_suites equal to the sum
over listings of the length of `listing.get('suites', [listing])` — a
listing without a `suites` key contributes 1 (the listing itself), but a
listing whose `suites` key holds an empty sequence contributes 0, so there
is no minimum contribution of 1 per listing. -/
theorem market_snapshot_counts (now : String) (data lv : Json)
    (listings : List Json) (ns : List Nat)
    (h1 : extract_listings data = .ok lv)
    (h2 : pyElems lv = .ok listings)
    (h3 : listings.mapM (fun l => suite_list_of l >>= pyLen) = .ok ns) :
    ∃ m, process_market_snapshot now data = .ok m ∧
      m.total_properties = listings.length ∧
      m.total_suites = ns.sum ∧
      m.snapshot_date = now ∧ m.market_area = TARGET_MARKET ∧
      m.property_type = "Industrial" ∧ m.raw_data = data := by
  exact ⟨_, market_snapshot_eval now data lv listings ns h1 h2 h3,
    rfl, rfl, rfl, rfl, rfl, rfl⟩

/-- C3 (witness): on the spec §8 example payload the market snapshot
reports 1 property and 2 suites. -/
theorem market_snapshot_counts_witness :
    (process_market_snapshot "t" payload_A1).map
      (fun m => (m.total_properties, m.total_suites)) = .ok (1, 2) := by
  obtain ⟨m, hm, hp, hs, -⟩ :=
    market_snapshot_counts "t" payload_A1
      (Json.arr [Json.obj
        [ ("id", Json.str "A1")
        , ("suites", Json.arr [ Json.obj [("id", Json.str "S1"), ("size", Json.num 1000)]
                              , Json.obj [("id", Json.str "S2"), ("size", Json.num 2000)] ]) ]])
      [Json.obj
        [ ("id", Json.str "A1")
        , ("suites", Json.arr [ Json.obj [("id", Json.str "S1"), ("size", Json.num 1000)]
                              , Json.obj [("id", Json.str "S2"), ("size", Json.num 2000)] ]) ]]
      [2] rfl rfl rfl
  rw [hm]
  simp [Except.map, hp, hs]

/-! ## Claims C10, C8, C9 — suite records vs market counts, field defaults -/

theorem process_suite_decomp {now : String} {data : Json} {recs : List SuiteSnapshot}
    (h : process_suite_snapshots now data = .ok recs) :
    ∃ lv listings nested, extract_listings data = .ok lv ∧
      pyElems lv = .ok listings ∧
      listings.mapM (fun listing => do
        let sv ← suite_list_of listing
        let suites ← pyElems sv
        suites.mapM (build_suite_snapshot now listing)) = .ok nested ∧
      recs = nested.flatten := by
  simp only [process_suite_snapshots] at h
  cases hlv : extract_listings data with
  | error e => rw [hlv, exceptBind_error] at h; cases h
  | ok lv =>
    rw [hlv, exceptBind_ok] at h
    cases hls : pyElems lv with
    | error e => rw [hls, exceptBind_error] at h; cases h
    | ok listings =>
      rw [hls, exceptBind_ok] at h
      cases hmm : listings.mapM (fun listing => do
          let sv ← suite_list_of listing
          let suites ← pyElems sv
          suites.mapM (build_suite_snapshot now listing)) with
      | error e => rw [hmm, exceptBind_error] at h; cases h
      | ok nested =>
        rw [hmm, exceptBind_ok] at h
        simp only [pure, Except.pure, Except.ok.injEq] at h
        exact ⟨lv, listings, nested, rfl, hls, hmm, h.symm⟩

theorem suite_expansion_ok {now : String} {listing : Json} {rs : List SuiteSnapshot}
    (h : (do
      let sv ← suite_list_of listing
      let suites ← pyElems sv
      suites.mapM (build_suite_snapshot now listing)) = .ok rs) :
    (suite_list_of listing >>= pyLen) = .ok rs.length := by
  cases hsv : suite_list_of listing with
  | error e => rw [hsv, exceptBind_error] at h; cases h
  | ok sv =>
    rw [hsv, exceptBind_ok] at h
    cases hse : pyElems sv with
    | error e => rw [hse, exceptBind_error] at h; cases h
    | ok suites =>
      rw [hse, exceptBind_ok] at h
      rw [exceptBind_ok, pyElems_ok_length hse, mapM_ok_length h]

theorem mapM_map_ok {α β γ : Type} {F : α → Except PyErr β} {G : α → Except PyErr γ}
    (p : β → γ) (hFG : ∀ x y, F x = .ok y → G x = .ok (p y)) :
    ∀ {xs : List α} {ys : List β}, xs.mapM F = .ok ys → xs.mapM G = .ok (ys.map p) := by
  intro xs
  induction xs with
  | nil => intro ys h; rw [mapM_nil_ok h]; rfl
  | cons x xs ih =>
    intro ys h
    rcases mapM_cons_ok h with ⟨y, ys', hx, hxs, rfl⟩
    rw [List.mapM_cons, hFG x y hx, exceptBind_ok, ih hxs, exceptBind_ok]
    rfl

/-- C10: whenever the suite snapshot builder succeeds on a payload, the
market snapshot builder also succeeds on that payload (with its own
timestamp) and its total_suites equals the number of suite records — both
are driven by the same suites-or-listing-itself fallback. -/
theorem suite_count_matches_market (now nowm : String) (data : Json)
    (recs : List SuiteSnapshot)
    (h : process_suite_snapshots now data = .ok recs) :
    ∃ m, process_market_snapshot nowm data = .ok m ∧
      m.total_suites = recs.length := by
  obtain ⟨lv, listings, nested, hlv, hls, hmm, rfl⟩ := process_suite_decomp h
  have h3 : listings.mapM (fun l => suite_list_of l >>= pyLen) =
      .ok (nested.map List.length) :=
    mapM_map_ok List.length (fun x y hxy => suite_expansion_ok hxy) hmm
  refine ⟨_, market_snapshot_eval nowm data lv listings (nested.map List.length)
    hlv hls h3, ?_⟩
  simp [List.length_flatten]

/-- C10 (witness): on the spec §8 example payload the suite builder emits
2 records and the market snapshot reports total_suites 2. -/
theorem suite_count_matches_market_witness :
    (process_market_snapshot "t" payload_A1).map (fun m => m.total_suites) =
      .ok 2 := by
  obtain ⟨m, hm, hlen⟩ := suite_count_matches_market "t" "t" payload_A1 _ rfl
  rw [hm]
  simp [Except.map, hlen.trans rfl]

theorem build_suite_fields {now : String} {listing suite : Json} {r : SuiteSnapshot}
    (h : build_suite_snapshot now listing suite = .ok r) :
    ∃ lf sf, listing = Json.obj lf ∧ suite = Json.obj sf ∧
      r.raw_data = Json.obj sf ∧
      r.suite_size = (sf.lookup "size").getD ((sf.lookup "squareFeet").getD Json.null) ∧
      r.lease_rate = (sf.lookup "rate").getD ((sf.lookup "leaseRate").getD Json.null) ∧
      r.crexi_asset_id =
        Json.str (pyStr ((lf.lookup "id").getD ((lf.lookup "assetId").getD (Json.str "")))) ∧
      r.crexi_suite_id =
        Json.str (pyStr ((sf.lookup "id").getD ((sf.lookup "suiteId").getD (Json.str "")))) := by
  cases listing with
  | obj lf =>
    cases suite with
    | obj sf =>
      simp only [build_suite_snapshot, pyGet, exceptBind_ok] at h
      simp only [pure, Except.pure, Except.ok.injEq] at h
      subst h
      exact ⟨lf, sf, rfl, rfl, rfl, rfl, rfl, rfl, rfl⟩
    | null => simp [build_suite_snapshot, pyGet, exceptBind_ok, exceptBind_error] at h
    | bool b => simp [build_suite_snapshot, pyGet, exceptBind_ok, exceptBind_error] at h
    | num n => simp [build_suite_snapshot, pyGet, exceptBind_ok, exceptBind_error] at h
    | str s => simp [build_suite_snapshot, pyGet, exceptBind_ok, exceptBind_error] at h
    | arr es => simp [build_suite_snapshot, pyGet, exceptBind_ok, exceptBind_error] at h
  | null => simp [build_suite_snapshot, pyGet, exceptBind_error] at h
  | bool b => simp [build_suite_snapshot, pyGet, exceptBind_error] at h
  | num n => simp [build_suite_snapshot, pyGet, exceptBind_error] at h
  | str s => simp [build_suite_snapshot, pyGet, exceptBind_error] at h
  | arr es => simp [build_suite_snapshot, pyGet, exceptBind_error] at h

theorem suite_record_origin {now : String} {data : Json} {recs : List SuiteSnapshot}
    {r : SuiteSnapshot} (h : process_suite_snapshots now data = .ok recs)
    (hr : r ∈ recs) :
    ∃ listing suite, build_suite_snapshot now listing suite = .ok r := by
  obtain ⟨lv, listings, nested, hlv, hls, hmm, rfl⟩ := process_suite_decomp h
  rcases List.mem_flatten.mp hr with ⟨rs, hrs, hrrs⟩
  rcases mapM_ok_mem hmm rs hrs with ⟨listing, hlmem, hF⟩
  cases hsv : suite_list_of listing with
  | error e => rw [hsv, exceptBind_error] at hF; cases hF
  | ok sv =>
    rw [hsv, exceptBind_ok] at hF
    cases hse : pyElems sv with
    | error e => rw [hse, exceptBind_error] at hF; cases hF
    | ok suites =>
      rw [hse, exceptBind_ok] at hF
      rcases mapM_ok_mem hF r hrrs with ⟨suite, hsmem, hb⟩
      exact ⟨listing, suite, hb⟩

/-- C8: every record the suite snapshot builder produces carries
string-typed crexi_asset_id and crexi_suite_id (coerced with `str(...)`);
moreover, for *every* listing/suite input pair on which the per-suite
builder succeeds, the produced record's identifiers are strings, and when
the listing (resp. suite) object has no id field under either alternate
key name the identifier is the empty string — never null and never
omitted.  The second part quantifies universally over all builder inputs,
so a builder defaulting the asset id to any other sentinel would refute
it. -/
theorem suite_record_ids_are_strings (now : String) (data : Json)
    (recs : List SuiteSnapshot) (r : SuiteSnapshot)
    (h : process_suite_snapshots now data = .ok recs) (hr : r ∈ recs) :
    (∃ s, r.crexi_asset_id = Json.str s) ∧
    (∃ s, r.crexi_suite_id = Json.str s) ∧
    (∀ (nowb : String) (listing suite : Json) (rb : SuiteSnapshot),
      build_suite_snapshot nowb listing suite = .ok rb →
      (∃ s, rb.crexi_asset_id = Json.str s) ∧
      (∃ s, rb.crexi_suite_id = Json.str s) ∧
      (∀ lf, listing = Json.obj lf → lf.lookup "id" = none →
        lf.lookup "assetId" = none → rb.crexi_asset_id = Json.str "") ∧
      (∀ sf, suite = Json.obj sf → sf.lookup "id" = none →
        sf.lookup "suiteId" = none → rb.crexi_suite_id = Json.str "")) := by
  obtain ⟨listing, suite, hb⟩ := suite_record_origin h hr
  obtain ⟨lf, sf, rfl, rfl, -, -, -, hasset, hsuite⟩ := build_suite_fields hb
  refine ⟨⟨_, hasset⟩, ⟨_, hsuite⟩, ?_⟩
  intro nowb listing suite rb hbb
  obtain ⟨lfb, sfb, rfl, rfl, -, -, -, hassetb, hsuiteb⟩ := build_suite_fields hbb
  refine ⟨⟨_, hassetb⟩, ⟨_, hsuiteb⟩, ?_, ?_⟩
  · intro lf' heq h1 h2
    have hl : lf' = lfb := (Json.obj.inj heq).symm
    subst hl
    rw [hassetb, h1, h2]
    rfl
  · intro sf' heq h1 h2
    have hs : sf' = sfb := (Json.obj.inj heq).symm
    subst hs
    rw [hsuiteb, h1, h2]
    rfl

/-- C8 (witness): for a payload whose one listing has no id field under any
name, the produced record's identifiers are strings — and, by the
universal builder clause applied to that record's concrete originating
objects, both identifiers are the empty string. -/
theorem suite_record_ids_witness :
    (∃ s, suiteRecNoId.crexi_asset_id = Json.str s) ∧
    (∃ s, suiteRecNoId.crexi_suite_id = Json.str s) ∧
    suiteRecNoId.crexi_asset_id = Json.str "" ∧
    suiteRecNoId.crexi_suite_id = Json.str "" := by
  have h := suite_record_ids_are_strings "t" payload_noid [suiteRecNoId] suiteRecNoId
    rfl (by simp)
  have hb := h.2.2 "t" (Json.obj [("squareFeet", Json.num 500)])
    (Json.obj [("squareFeet", Json.num 500)]) suiteRecNoId rfl
  exact ⟨h.1, h.2.1, hb.2.2.1 _ rfl rfl rfl, hb.2.2.2 _ rfl rfl rfl⟩

/-- C9: a suite record whose source suite object (its raw_data) lacks both
`size` and `squareFeet` carries null for suite_size — never 0 and never a
string — and likewise lease_rate when both `rate` and `leaseRate` are
absent. -/
theorem missing_numeric_fields_null (now : String) (data : Json)
    (recs : List SuiteSnapshot) (r : SuiteSnapshot) (sf : List (String × Json))
    (h : process_suite_snapshots now data = .ok recs) (hr : r ∈ recs)
    (hraw : r.raw_data = Json.obj sf) :
    (sf.lookup "size" = none → sf.lookup "squareFeet" = none →
      r.suite_size = Json.null ∧ r.suite_size ≠ Json.num 0 ∧
        ∀ s, r.suite_size ≠ Json.str s) ∧
    (sf.lookup "rate" = none → sf.lookup "leaseRate" = none →
      r.lease_rate = Json.null ∧ r.lease_rate ≠ Json.num 0 ∧
        ∀ s, r.lease_rate ≠ Json.str s) := by
  obtain ⟨listing, suite, hb⟩ := suite_record_origin h hr
  obtain ⟨lf, sf', rfl, rfl, hraw', hsize, hrate, -, -⟩ := build_suite_fields hb
  have hsf : sf' = sf := Json.obj.inj (hraw'.symm.trans hraw)
  subst hsf
  constructor
  · intro h1 h2
    rw [hsize, h1, h2]
    exact ⟨rfl, by simp, by simp⟩
  · intro h1 h2
    rw [hrate, h1, h2]
    exact ⟨rfl, by simp, by simp⟩

/-- C9 (witness): the record built for the empty listing object has null
suite_size and lease_rate. -/
theorem missing_numeric_fields_null_witness :
    suiteRecBare.suite_size = Json.null ∧ suiteRecBare.lease_rate = Json.null := by
  have h := missing_numeric_fields_null "t" payload_bare [suiteRecBare] suiteRecBare []
    rfl (by simp) rfl
  exact ⟨(h.1 rfl rfl).1, (h.2 rfl rfl).1⟩

/-! ## Claim C4 — prober order and first-match-wins -/

/-- C4: the prober iterates the cross-product in the fixed nested order
(base URL, then endpoint path, then header scheme, as laid out by
`allCombos`); if combination `i` is the first whose response has status
200, exactly the first `i + 1` combinations are attempted and the result
reports combination `i`'s URL and headers together with the response
body. -/
theorem prober_first_200 (key : String) (net : Combo → AttemptOutcome) (i : Nat)
    (h : i < (allCombos key).length) (body : Json)
    (h200 : net ((allCombos key).get ⟨i, h⟩) = .resp 200 body)
    (hprev : ∀ j (hj : j < i),
      is200 (net ((allCombos key).get ⟨j, Nat.lt_trans hj h⟩)) = false) :
    fetch_crexi_listings key net =
      ((allCombos key).take (i + 1),
        .success ((allCombos key).get ⟨i, h⟩).url
          ((allCombos key).get ⟨i, h⟩).headers body) ∧
    ((allCombos key).take (i + 1)).length = i + 1 := by
  refine ⟨probeLoop_success_at (allCombos key) i h body h200 hprev, ?_⟩
  simp only [List.length_take]
  omega

/-- C4 (witness): with a stub answering 404 for the first five
combinations and 200 for the sixth, exactly six requests are made and the
sixth combination is reported. -/
theorem prober_first_200_witness :
    fetch_crexi_listings "key" stubNet200at6 =
      ((allCombos "key").take 6,
        .success combo6.url combo6.headers (Json.obj [])) ∧
    ((allCombos "key").take 6).length = 6 := by
  have h := prober_first_200 "key" stubNet200at6 5 (by decide) (Json.obj [])
    (by rfl) (by decide)
  exact h

/-! ## Claim C5 — cross-product size and exhaustion -/

/-- C5 (counterexample): the cross-product of two base URLs, six endpoint
paths, and three header schemes has 36 combinations, not 18 as the claim
states. -/
theorem probe_cross_product_size_counterexample :
    (allCombos "key").length = 36 ∧ (36 : Nat) ≠ 18 := by
  exact ⟨rfl, by decide⟩

/-- C5 (amended): the probe cross-product over two base URLs, six endpoint
paths, and three header schemes comprises 36 combinations in total, and
the prober returns a failure result exactly when all 36 combinations have
been tried without any returning HTTP 200; per-attempt transport failures
and non-200 statuses never terminate the loop early. -/
theorem prober_exhaustion (key : String) (net : Combo → AttemptOutcome) :
    (allCombos key).length = 36 ∧
    ((∀ c ∈ allCombos key, is200 (net c) = false) →
      fetch_crexi_listings key net =
        (allCombos key, .failure "No working endpoint found")) ∧
    (∀ tried err, fetch_crexi_listings key net = (tried, .failure err) →
      tried = allCombos key ∧ tried.length = 36 ∧
      ∀ c ∈ allCombos key, is200 (net c) = false) := by
  have hlen : (allCombos key).length = 36 := rfl
  refine ⟨hlen, ?_, ?_⟩
  · intro hall
    exact probeLoop_all_fail (allCombos key) hall
  · intro tried err h
    obtain ⟨ht, hall⟩ := probeLoop_failure_shape (allCombos key) tried err h
    exact ⟨ht, by rw [ht]; exact hlen, hall⟩

/-- C5 (witness): against a stub that answers 404 everywhere, the prober
tries all 36 combinations and reports failure. -/
theorem prober_exhaustion_witness :
    fetch_crexi_listings "key" stubNet404 =
      (allCombos "key", .failure "No working endpoint found") ∧
    (allCombos "key").length = 36 := by
  have h := prober_exhaustion "key" stubNet404
  exact ⟨h.2.1 (fun c _ => rfl), h.1⟩

/-! ## Claim C6 — persister ordering, batching, and abort-on-failure -/

/-- C6: the persister issues the market-snapshot insert first; if it fails
with `e`, no suite insert is issued and `e` propagates unmodified; if it
succeeds and every batch insert succeeds, the suite snapshots go out as
the sequential 100-element batches of `chunk100` (whose concatenation is
the full record list, every batch is nonempty with at most 100 records,
and every batch but the last has exactly 100); and on any failure, the
failing insert is the last call issued, all earlier calls succeeded, and
the error propagates unmodified. -/
theorem persister_order (ε : Type) (db : DbCall → Option ε) (m : MarketSnapshot)
    (suites : List SuiteSnapshot) (calls : List DbCall) (err : Option ε)
    (h : save_to_supabase db m suites = (calls, err)) :
    calls.head? = some (.marketInsert m) ∧
    (∀ e, db (.marketInsert m) = some e →
      calls = [.marketInsert m] ∧ err = some e) ∧
    (db (.marketInsert m) = none → (∀ b, db (.suiteInsert b) = none) →
      calls = .marketInsert m :: (chunk100 suites).map DbCall.suiteInsert ∧
      err = none) ∧
    (chunk100 suites).flatten = suites ∧
    (∀ b ∈ chunk100 suites, 0 < b.length ∧ b.length ≤ 100) ∧
    (∀ i, i + 1 < (chunk100 suites).length →
      ((chunk100 suites).getD i []).length = 100) ∧
    (∀ e, err = some e →
      ∃ pre c, calls = pre ++ [c] ∧ db c = some e ∧
        ∀ c' ∈ pre, db c' = none) := by
  simp only [save_to_supabase] at h
  cases hdb : db (.marketInsert m) with
  | some e0 =>
    rw [hdb] at h
    dsimp only at h
    simp only [Prod.mk.injEq] at h
    obtain ⟨hc, he⟩ := h
    subst hc; subst he
    refine ⟨rfl, ?_, ?_, chunk100_flatten suites, chunk100_batch_size suites,
      chunk100_full_batches suites, ?_⟩
    · intro e hme
      exact ⟨rfl, hme⟩
    · intro hnone
      simp at hnone
    · intro e hse
      exact ⟨[], .marketInsert m, rfl, hdb.trans hse, by simp⟩
  | none =>
    rw [hdb] at h
    dsimp only at h
    cases hib : insertBatches db (chunk100 suites) with
    | mk bcalls berr =>
      rw [hib] at h
      dsimp only at h
      simp only [Prod.mk.injEq] at h
      obtain ⟨hc, he⟩ := h
      subst hc; subst he
      refine ⟨rfl, ?_, ?_, chunk100_flatten suites, chunk100_batch_size suites,
        chunk100_full_batches suites, ?_⟩
      · intro e hme
        simp at hme
      · intro _ hallb
        have := insertBatches_all_ok db (chunk100 suites)
          (fun b _ => hallb b)
        rw [hib] at this
        simp only [Prod.mk.injEq] at this
        exact ⟨by rw [this.1], this.2⟩
      · intro e hse
        obtain ⟨pre, b, rest, hsplit, hpre, hfail, hcalls⟩ :=
          insertBatches_fail_shape db (chunk100 suites) bcalls e (by rw [hib, hse])
        refine ⟨.marketInsert m :: pre.map DbCall.suiteInsert, .suiteInsert b, ?_,
          hfail, ?_⟩
        · simp [hcalls]
        · intro c' hc'
          rcases List.mem_cons.mp hc' with rfl | hmem
          · exact hdb
          · rcases List.mem_map.mp hmem with ⟨b', hb', rfl⟩
            exact hpre b' hb'

set_option maxRecDepth 8000 in
/-- C6 (witness): with 250 suite records and a database stub on which
every insert succeeds, the persister issues the market insert followed by
the suite batches, and those batches have sizes 100, 100, 50 in order. -/
theorem persister_order_witness :
    save_to_supabase dbAllOk marketRec0 (List.replicate 250 suiteRec0) =
      (DbCall.marketInsert marketRec0 ::
        (chunk100 (List.replicate 250 suiteRec0)).map DbCall.suiteInsert, none) ∧
    (chunk100 (List.replicate 250 suiteRec0)).map List.length = [100, 100, 50] := by
  rcases hs : save_to_supabase dbAllOk marketRec0 (List.replicate 250 suiteRec0)
    with ⟨calls, err⟩
  have h := persister_order Unit dbAllOk marketRec0 (List.replicate 250 suiteRec0)
    calls err hs
  obtain ⟨hc, he⟩ := h.2.2.1 rfl (fun b => rfl)
  refine ⟨?_, by decide⟩
  rw [hc, he]

/-! ## Claim C7 — environment validation aborts before any I/O -/

/-- C7: whenever at least one of the three required environment variables
is unset or empty, the run prints the aggregated message listing exactly
the missing names (each name is in the list precisely when its variable is
not truthy, with no duplicates), exits with the non-zero status 1, and its
event trace consists of console lines only — no HTTP request and no
database insert is issued. -/
theorem env_validation_aborts (ε : Type) (env : Env) (net : Combo → AttemptOutcome)
    (db : DbCall → Option ε) (now : String) (hmiss : missingVars env ≠ []) :
    ∃ lines, validate_environment env = (lines, some 1) ∧
      mainRun env net db now = (lines.map Event.consoleLine, .exited 1) ∧
      lines.head? = some (missingMessage (missingVars env)) ∧
      (∀ name, name ∈ missingVars env ↔
        (name = "CREXI_API_KEY" ∧ envTruthy env.CREXI_API_KEY = false) ∨
        (name = "SUPABASE_URL" ∧ envTruthy env.SUPABASE_URL = false) ∨
        (name = "SUPABASE_KEY" ∧ envTruthy env.SUPABASE_KEY = false)) ∧
      (missingVars env).Nodup ∧
      (∀ ev ∈ (mainRun env net db now).1, ∀ u hs, ev ≠ Event.httpGet u hs) ∧
      (∀ ev ∈ (mainRun env net db now).1, ∀ c, ev ≠ Event.dbWrite c) ∧
      (1 : Nat) ≠ 0 := by
  have hval : validate_environment env =
      ( [ missingMessage (missingVars env)
        , "\nPlease set them in your environment or .env file:"
        , "  export CREXI_API_KEY=\x27your-api-key\x27"
        , "  export SUPABASE_URL=\x27your-supabase-url\x27"
        , "  export SUPABASE_KEY=\x27your-supabase-key\x27" ]
      , some 1 ) := by
    simp only [validate_environment]
    rw [if_neg (by simpa [List.isEmpty_iff] using hmiss)]
  have hmain : mainRun env net db now =
      ((validate_environment env).1.map Event.consoleLine, .exited 1) := by
    simp only [mainRun]
    rw [hval]
  refine ⟨_, hval, by rw [hmain, hval], rfl, ?_, ?_, ?_, ?_, by decide⟩
  · intro name
    cases h1 : envTruthy env.CREXI_API_KEY <;>
    cases h2 : envTruthy env.SUPABASE_URL <;>
    cases h3 : envTruthy env.SUPABASE_KEY <;>
    simp [missingVars, h1, h2, h3]
  · cases h1 : envTruthy env.CREXI_API_KEY <;>
    cases h2 : envTruthy env.SUPABASE_URL <;>
    cases h3 : envTruthy env.SUPABASE_KEY <;>
    simp [missingVars, h1, h2, h3]
  · intro ev hev u hs
    rw [hmain] at hev
    rcases List.mem_map.mp hev with ⟨s, -, rfl⟩
    simp
  · intro ev hev c
    rw [hmain] at hev
    rcases List.mem_map.mp hev with ⟨s, -, rfl⟩
    simp

/-- C7 (witness): with an empty API key and an unset backend URL the run
prints the aggregated two-name message and exits 1 with a trace of console
lines only. -/
theorem env_validation_aborts_witness :
    mainRun envMissingTwo netUnused dbAllOk "t" =
      ((validate_environment envMissingTwo).1.map Event.consoleLine, .exited 1) ∧
    (validate_environment envMissingTwo).1.head? =
      some (missingMessage ["CREXI_API_KEY", "SUPABASE_URL"]) := by
  obtain ⟨lines, h1, h2, h3, -⟩ :=
    env_validation_aborts Unit envMissingTwo netUnused dbAllOk "t" (by decide)
  rw [h1]
  exact ⟨h2, h3⟩

end SyncCrexi
